import Mathlib

/-!
Verification development for the yt-downloader task-orchestration core.

The definitions below are a shallow embedding of the Go source:
* `internal/model` task status vocabulary and task records,
* `internal/download/service.go` registry operations (`AddTask`, `StopTask`,
  `PauseTask`), progress/ETA updating, the smoothing buffer and the
  playlist coordinator,
* `internal/compress/service.go` compression registry operations.

Go `float64` values are modelled as `ℚ` (exact rationals); all the facts
proved here are insensitive to floating-point rounding.  Go machine `int`
values are modelled as `Int` with Go's truncating division made explicit.
Wall-clock instants (`time.Time`) are modelled as rationals measured in
seconds, with `0` playing the role of the zero `time.Time` value.
Goroutine interleaving is modelled, where a claim needs it, by an explicit
action-step machine whose each action is one mutex-protected critical
section of the source.
-/

namespace YtDownloader

/-- Task status vocabulary from `internal/model` (`TaskStatus` constants),
including the `Paused` status used throughout the download service. -/
inductive TaskStatus where
  | pending
  | starting
  | downloading
  | stopping
  | paused
  | stopped
  | completed
  | error
deriving DecidableEq, Repr

/-- `TaskStatus.IsActive`: true for Starting, Downloading and Stopping. -/
def TaskStatus.isActive : TaskStatus → Bool
  | .starting => true
  | .downloading => true
  | .stopping => true
  | _ => false

/-- `TaskStatus.IsFinished`: true for Completed, Stopped and Error. -/
def TaskStatus.isFinished : TaskStatus → Bool
  | .completed => true
  | .stopped => true
  | .error => true
  | _ => false

/-- `model.DownloadTask`: the fields the claims are about.  `progress` is the
Go `float64` in `[0,1]`, `percent` and `etaSec` are Go `int`s. -/
structure DownloadTask where
  id : String
  url : String
  status : TaskStatus
  progress : ℚ
  percent : Int
  speed : String
  etaSec : Int
  lastError : String
deriving DecidableEq, Repr

/-- `download.StopMode`: intent behind a cancellation request. -/
inductive StopMode where
  | modeNone
  | modePause
  | modeStop
deriving DecidableEq, Repr

/-- The state guarded by `Service.tasksMutex`: the task map (modelled as a
list keyed by `id`), the `stopModes` map, and the scheduler counters. -/
structure ServiceState where
  tasks : List DownloadTask
  stopModes : List (String × StopMode)
  activeCount : Nat
  maxParallel : Nat
deriving DecidableEq, Repr

/-- Go map write `m[k] = v` on an association list. -/
def mapSet (m : List (String × StopMode)) (k : String) (v : StopMode) :
    List (String × StopMode) :=
  if m.any (fun p => p.1 == k) then
    m.map (fun p => if p.1 == k then (k, v) else p)
  else m ++ [(k, v)]

/-- Go map delete `delete(m, k)` on an association list. -/
def mapDelete (m : List (String × StopMode)) (k : String) :
    List (String × StopMode) :=
  m.filter (fun p => p.1 != k)

/-- Go map write `s.tasks[t.ID] = t` on the task list. -/
def insertTask (tasks : List DownloadTask) (t : DownloadTask) : List DownloadTask :=
  if tasks.any (fun u => u.id == t.id) then
    tasks.map (fun u => if u.id == t.id then t else u)
  else tasks ++ [t]

/-- In-place update of the task with the given id (the Go code mutates the
task object found in the map). -/
def updateTask (tasks : List DownloadTask) (id : String) (t : DownloadTask) :
    List DownloadTask :=
  tasks.map (fun u => if u.id == id then t else u)

/-- The task literal built by `Service.AddTask`: Pending, progress 0.0,
percent 0, ETASec -1 (title/speed empty). -/
def freshTask (newId u : String) : DownloadTask :=
  { id := newId
    url := u
    status := .pending
    progress := 0
    percent := 0
    speed := ""
    etaSec := -1
    lastError := "" }

/-- `Service.AddTask` (service.go:267).  `newId` stands for the value of
`generateTaskID()` (a UUIDv7).  The spawned `startTask` goroutine only runs
after `AddTask` returns, so the state returned here is the registry at the
moment `AddTask` returns. -/
def addTask (st : ServiceState) (newId u : String) :
    Except String DownloadTask × ServiceState :=
  if st.tasks.any (fun t => t.url == u && !t.status.isFinished) then
    (Except.error ("task already exists for URL: " ++ u), st)
  else
    let task := freshTask newId u
    (Except.ok task, { st with tasks := insertTask st.tasks task })

/-- `Service.StopTask` (service.go:335). -/
def stopTask (st : ServiceState) (id : String) : Except String Unit × ServiceState :=
  match st.tasks.find? (fun t => t.id == id) with
  | none => (Except.error ("task not found: " ++ id), st)
  | some task =>
    if task.status == .pending || task.status == .paused || task.status == .error then
      let t := { task with status := .stopped, lastError := "" }
      (Except.ok (),
        { st with tasks := updateTask st.tasks id t, stopModes := mapDelete st.stopModes id })
    else if !task.status.isActive then
      (Except.ok (), st)
    else
      let t := { task with status := .stopping }
      (Except.ok (),
        { st with tasks := updateTask st.tasks id t
                  stopModes := mapSet st.stopModes id .modeStop })

/-- `Service.PauseTask` (service.go:376). -/
def pauseTask (st : ServiceState) (id : String) : Except String Unit × ServiceState :=
  match st.tasks.find? (fun t => t.id == id) with
  | none => (Except.error ("task not found: " ++ id), st)
  | some task =>
    if !task.status.isActive then
      (Except.ok (), st)
    else
      let t := { task with status := .stopping }
      (Except.ok (),
        { st with tasks := updateTask st.tasks id t
                  stopModes := mapSet st.stopModes id .modePause })

/-! ### Progress smoothing layer (`SmoothingState`, service.go:61) -/

/-- `SmoothingState`: the two parallel measurement buffers.  The timer and
mutex fields play no role in the values computed. -/
structure SmoothingState where
  speedMeasurements : List ℚ
  percentMeasurements : List Int
deriving DecidableEq, Repr

/-- The fresh smoothing state created by `startSmoothingTimer`. -/
def emptySmoothing : SmoothingState := { speedMeasurements := [], percentMeasurements := [] }

/-- `SmoothingState.addMeasurement` (service.go:79): append, then drop the
oldest sample when the buffer exceeds 10 entries. -/
def SmoothingState.addMeasurement (ss : SmoothingState) (speedMBps : ℚ) (percent : Int) :
    SmoothingState :=
  let sp := ss.speedMeasurements ++ [speedMBps]
  let pc := ss.percentMeasurements ++ [percent]
  if sp.length > 10 then
    { speedMeasurements := sp.drop 1, percentMeasurements := pc.drop 1 }
  else
    { speedMeasurements := sp, percentMeasurements := pc }

/-- Truncation toward zero of a rational, modelling Go's `int(float64)`
conversion. -/
def ratTrunc (q : ℚ) : Int := Int.tdiv q.num (q.den : Int)

/-- Models `fmt.Sprintf("%.1f", q)` for a non-negative argument: round to the
nearest tenth and print one decimal digit.  (Go rounds the binary double
correctly to one decimal; for the rational values arising in the claims the
two coincide and no tie occurs.) -/
def fmt1f (q : ℚ) : String :=
  let n : Nat := (⌊q * 10 + 1 / 2⌋).toNat
  toString (n / 10) ++ "." ++ toString (n % 10)

/-- `SmoothingState.calculateSmoothedValues` (service.go:94): the returned
`(speed string, percent)` pair.  Go's `/` on ints truncates toward zero,
hence `Int.tdiv` (truncating division). -/
def SmoothingState.calculateSmoothedValues (ss : SmoothingState) : String × Int :=
  if ss.speedMeasurements.length = 0 then ("", 0)
  else
    let totalSpeed : ℚ := ss.speedMeasurements.foldl (· + ·) 0
    let avgSpeed : ℚ := totalSpeed / (ss.speedMeasurements.length : ℚ)
    let totalPercent : Int := ss.percentMeasurements.foldl (· + ·) 0
    let avgPercent : Int := Int.tdiv totalPercent (ss.percentMeasurements.length : Int)
    let speedStr : String := if 0 < avgSpeed then fmt1f avgSpeed ++ "MB/s" else ""
    (speedStr, avgPercent)

/-! ### Raw progress updating (`Service.updateTaskProgressFromNew`, service.go:670) -/

/-- The `ytdlp.Progress` callback payload: cumulative byte counts. -/
structure Progress where
  totalSize : Int
  downloadedSize : Int
deriving DecidableEq, Repr

/-- One `Service.progressState` entry: the previous raw sample.  `lastAt` is
the sample instant in seconds; `0` models the zero `time.Time` (so
`!state.lastAt.IsZero()` becomes `lastAt ≠ 0`). -/
structure ProgressEntry where
  lastBytes : Int
  lastAt : ℚ
deriving DecidableEq, Repr

/-- The per-task state touched by a progress callback: the task record, its
`progressState` entry (if any) and its smoothing state (if any). -/
structure ProgressCtx where
  task : DownloadTask
  progressEntry : Option ProgressEntry
  smoothing : Option SmoothingState
deriving DecidableEq, Repr

/-- `Service.updateTaskProgressFromNew` (service.go:670), with `now` the value
of `time.Now()` taken at the top of the speed section.  Faithful to the
source order: the percent/progress section, the speed-delta section (reading
the old `progressState` entry), the snapshot overwrite, the smoothing
`addMeasurement`, and finally the ETA section — which re-reads the *freshly
overwritten* `progressState` entry, exactly as the source does. -/
def updateTaskProgressFromNew (ctx : ProgressCtx) (p : Progress) (now : ℚ) : ProgressCtx :=
  -- Calculate current percent
  let task0 := ctx.task
  let step1 : DownloadTask × Int :=
    if 0 < p.totalSize then
      let percent : ℚ := (p.downloadedSize : ℚ) / (p.totalSize : ℚ) * 100
      ({ task0 with progress := percent / 100 }, ratTrunc percent)
    else if 0 < p.downloadedSize then
      let cp : Int := min (ratTrunc ((p.downloadedSize : ℚ) / 1024 / 1024)) 99
      ({ task0 with progress := (cp : ℚ) / 100 }, cp)
    else (task0, 0)
  let task1 := step1.1
  let currentPercent := step1.2
  -- Calculate current speed using delta snapshots (reads the old entry)
  let currentSpeedMBps : ℚ :=
    match ctx.progressEntry with
    | some state =>
      if state.lastAt ≠ 0 then
        let deltaBytes : Int := p.downloadedSize - state.lastBytes
        let deltaTime : ℚ := now - state.lastAt
        if 0 < deltaBytes ∧ 0 < deltaTime then
          let bps : ℚ := (deltaBytes : ℚ) / deltaTime
          if 0 < bps then bps / 1024 / 1024 else 0
        else 0
      else 0
    | none => 0
  -- Snapshot overwrite: s.progressState[task.ID] = {lastBytes, lastAt: now}
  let entry1 : Option ProgressEntry := some { lastBytes := p.downloadedSize, lastAt := now }
  -- Add measurements to smoothing state
  let smoothing1 := ctx.smoothing.map (fun ss => ss.addMeasurement currentSpeedMBps currentPercent)
  -- Calculate ETA: re-reads s.progressState[task.ID], i.e. `entry1`
  let task2 : DownloadTask :=
    if 0 < p.totalSize then
      match entry1 with
      | some state =>
        if state.lastAt ≠ 0 then
          let deltaBytes : Int := p.downloadedSize - state.lastBytes
          let deltaTime : ℚ := now - state.lastAt
          if 0 < deltaBytes ∧ 0 < deltaTime then
            let bps : ℚ := (deltaBytes : ℚ) / deltaTime
            let remaining : Int := p.totalSize - p.downloadedSize
            if 0 < bps ∧ 0 < remaining then
              { task1 with etaSec := ratTrunc ((remaining : ℚ) / bps) }
            else task1
          else task1
        else task1
      | none => task1
    else task1
  { task := task2, progressEntry := entry1, smoothing := smoothing1 }

/-! ### Go string helpers

`strings.Split` / `strings.Contains` modelled on `List Char`, for the
non-empty separators the source uses.  Go `len` on a string counts UTF-8
bytes, hence `goLen` sums `Char.utf8Size`. -/

/-- First occurrence of `sep` in the list: `some (before, after)` where
`after` is the remainder past the separator; `none` if `sep` never occurs. -/
def findSep (sep : List Char) : List Char → Option (List Char × List Char)
  | [] => if sep.isEmpty then some ([], []) else none
  | c :: rest =>
    if sep.isPrefixOf (c :: rest) then some ([], (c :: rest).drop sep.length)
    else
      match findSep sep rest with
      | none => none
      | some (pre, post) => some (c :: pre, post)

/-- Fuel-driven repeated splitting; `goSplit` supplies enough fuel. -/
def splitFuel (sep : List Char) : Nat → List Char → List (List Char)
  | 0, l => [l]
  | fuel + 1, l =>
    match findSep sep l with
    | none => [l]
    | some (pre, post) => pre :: splitFuel sep fuel post

/-- Models Go `strings.Split(s, sep)` for a non-empty `sep`: each split
consumes at least one character, so `length + 1` fuel is always enough. -/
def goSplit (s sep : List Char) : List (List Char) := splitFuel sep (s.length + 1) s

/-- Models Go `strings.Contains(s, sub)`. -/
def goContains (s sub : List Char) : Bool := (findSep sub s).isSome

/-- Models Go `len()` of a string: the UTF-8 byte count. -/
def goLen (l : List Char) : Nat := (l.map Char.utf8Size).sum

/-- `Service.extractVideoID` (service.go:791), as a partial function:
`none` models a Go runtime panic.  The only panic site is the generic
fallback `hash[:8]`, where `hash = fmt.Sprintf("%x", len(url))` — Go string
slicing panics when the hex string is shorter than 8 bytes. -/
def extractVideoID (url : String) : Option String :=
  let u := url.data
  -- youtube.com/watch?v= and youtu.be/ branches (if / else if); `none` here
  -- means the branch fell through without returning
  let step1 : Option (List Char) :=
    if goContains u "youtube.com/watch?v=".data then
      let parts := goSplit u "v=".data
      if parts.length > 1 then
        let a := (goSplit (parts.getD 1 []) "&".data).headD []
        let b := (goSplit a "#".data).headD []
        let c := (goSplit b "/".data).headD []
        if goLen c == 11 then some c else none
      else none
    else if goContains u "youtu.be/".data then
      let parts := goSplit u "youtu.be/".data
      if parts.length > 1 then
        let a := (goSplit (parts.getD 1 []) "?".data).headD []
        let b := (goSplit a "#".data).headD []
        if goLen b == 11 then some b else none
      else none
    else none
  match step1 with
  | some v => some (String.mk v)
  | none =>
    -- vimeo.com/ branch
    let step2 : Option (List Char) :=
      if goContains u "vimeo.com/".data then
        let parts := goSplit u "vimeo.com/".data
        if parts.length > 1 then
          let a := (goSplit (parts.getD 1 []) "/".data).headD []
          let b := (goSplit a "?".data).headD []
          let c := (goSplit b "#".data).headD []
          if c.isEmpty then none else some ("vimeo_".data ++ c)
        else none
      else none
    match step2 with
    | some v => some (String.mk v)
    | none =>
      -- Generic fallback: hash := fmt.Sprintf("%x", len(url)); "video_" + hash[:8]
      let hash := Nat.toDigits 16 (goLen u)
      if hash.length < 8 then none  -- hash[:8] panics: slice bounds out of range
      else some (String.mk ("video_".data ++ hash.take 8))

/-! ### Compression service (`internal/compress/service.go`) -/

/-- `model.CompressionTask`: the fields the claims are about. -/
structure CompressionTask where
  id : String
  inputPath : String
  outputPath : String
  status : TaskStatus
  progress : ℚ
  percent : Int
deriving DecidableEq, Repr

/-- The compression registry guarded by its `tasksMutex`. -/
structure CompressState where
  tasks : List CompressionTask
deriving DecidableEq, Repr

/-- Models `path/filepath.Ext`: scan the path backwards; a `/` before any dot
means no extension, otherwise the suffix from the final dot. -/
def goExtAux : List Char → List Char → Option (List Char)
  | [], _ => none
  | c :: rest, acc =>
    if c = '/' then none
    else if c = '.' then some (c :: acc)
    else goExtAux rest (c :: acc)

/-- `filepath.Ext(p)`: the final-dot suffix of the last path element, or "". -/
def goPathExt (p : String) : String :=
  match goExtAux p.data.reverse [] with
  | none => ""
  | some e => String.mk e

/-- Models `strings.TrimSuffix(s, suf)`. -/
def goTrimSuffix (s suf : String) : String :=
  if suf.data.isSuffixOf s.data then String.mk (s.data.take (s.data.length - suf.data.length))
  else s

/-- The `CompressedSuffix` constant of the compression service. -/
def CompressedSuffix : String := "-compressed"

/-- `compress.generateOutputPath` (compress/service.go:302). -/
def generateOutputPath (inputPath : String) : String :=
  let ext := goPathExt inputPath
  let baseName := goTrimSuffix inputPath ext
  baseName ++ CompressedSuffix ++ ".mp4"

/-- Go map write on the compression task list. -/
def insertCTask (tasks : List CompressionTask) (t : CompressionTask) : List CompressionTask :=
  if tasks.any (fun u => u.id == t.id) then
    tasks.map (fun u => if u.id == t.id then t else u)
  else tasks ++ [t]

/-- `Service.StartCompression` (compress/service.go:58).  `fileExists` stands
for the `os.Stat`/`os.IsNotExist` probe; `newId` for `generateTaskID()`.  The
`startCompression` goroutine runs only after this returns, so the returned
state is the registry at the moment `StartCompression` returns. -/
def startCompression (st : CompressState) (fileExists : String → Bool)
    (newId inputPath : String) : Except String CompressionTask × CompressState :=
  if st.tasks.any (fun t => t.inputPath == inputPath && t.status.isActive) then
    (Except.error ("compression already in progress for file: " ++ inputPath), st)
  else if !fileExists inputPath then
    (Except.error ("input file does not exist: " ++ inputPath), st)
  else
    let task : CompressionTask :=
      { id := newId
        inputPath := inputPath
        outputPath := generateOutputPath inputPath
        status := .pending
        progress := 0
        percent := 0 }
    (Except.ok task, { tasks := insertCTask st.tasks task })

/-! ### Playlist coordinator (`model.Playlist`, `Service.processPlaylist`) -/

/-- `model.VideoStatus` (src/unnamed/part_006). -/
inductive VideoStatus where
  | pending
  | downloading
  | completed
  | error
  | skipped
  | paused
deriving DecidableEq, Repr

/-- `model.PlaylistStatus` (src/unnamed/part_006). -/
inductive PlaylistStatus where
  | parsing
  | ready
  | downloading
  | completed
  | error
deriving DecidableEq, Repr

/-- `model.PlaylistVideo`: the fields the claims are about. -/
structure PlaylistVideo where
  id : String
  url : String
  status : VideoStatus
  progress : ℚ
  errMsg : String
  outputPath : String
deriving DecidableEq, Repr

/-- `model.Playlist`: the fields the claims are about. -/
structure Playlist where
  id : String
  videos : List PlaylistVideo
  status : PlaylistStatus
deriving DecidableEq, Repr

/-- `Playlist.UpdateStatus`. -/
def Playlist.updateStatus (p : Playlist) (s : PlaylistStatus) : Playlist :=
  { p with status := s }

/-- `Playlist.UpdateVideoStatus`: mutate the first video with the given id. -/
def updateVideoStatusList : List PlaylistVideo → String → VideoStatus → List PlaylistVideo
  | [], _, _ => []
  | v :: rest, vid, s =>
    if v.id == vid then { v with status := s } :: rest
    else v :: updateVideoStatusList rest vid s

/-- `Playlist.UpdateVideoStatus` on the playlist. -/
def Playlist.updateVideoStatus (p : Playlist) (vid : String) (s : VideoStatus) : Playlist :=
  { p with videos := updateVideoStatusList p.videos vid s }

/-- `Playlist.UpdateVideoProgress`: mutate the first video with the given id. -/
def updateVideoProgressList : List PlaylistVideo → String → ℚ → List PlaylistVideo
  | [], _, _ => []
  | v :: rest, vid, pr =>
    if v.id == vid then { v with progress := pr } :: rest
    else v :: updateVideoProgressList rest vid pr

/-- `Playlist.UpdateVideoProgress` on the playlist. -/
def Playlist.updateVideoProgress (p : Playlist) (vid : String) (pr : ℚ) : Playlist :=
  { p with videos := updateVideoProgressList p.videos vid pr }

/-- `Playlist.UpdateVideoOutputPath` (output path only; file size omitted). -/
def updateVideoOutputPathList : List PlaylistVideo → String → String → List PlaylistVideo
  | [], _, _ => []
  | v :: rest, vid, op =>
    if v.id == vid then { v with outputPath := op } :: rest
    else v :: updateVideoOutputPathList rest vid op

/-- `Playlist.UpdateVideoOutputPath` on the playlist. -/
def Playlist.updateVideoOutputPath (p : Playlist) (vid : String) (op : String) : Playlist :=
  { p with videos := updateVideoOutputPathList p.videos vid op }

/-- The direct `video.Error = msg` assignment done by `downloadPlaylistVideo`. -/
def updateVideoErrorList : List PlaylistVideo → String → String → List PlaylistVideo
  | [], _, _ => []
  | v :: rest, vid, msg =>
    if v.id == vid then { v with errMsg := msg } :: rest
    else v :: updateVideoErrorList rest vid msg

/-- `video.Error = msg` on the playlist. -/
def Playlist.setVideoError (p : Playlist) (vid : String) (msg : String) : Playlist :=
  { p with videos := updateVideoErrorList p.videos vid msg }

/-- `Playlist.GetPendingVideos`. -/
def Playlist.getPendingVideos (p : Playlist) : List PlaylistVideo :=
  p.videos.filter (fun v => v.status == .pending)

/-- Outcome of the download engine for one playlist video, abstracting the
external engine and the spawned monitor goroutine of
`Service.downloadPlaylistVideo`: `none` models `AddTask` returning an error
(its message is deterministic: the duplicate-URL message); `some (ts, msg,
path)` models the shadowing task reaching the finished status `ts` with
`LastError = msg` and `OutputPath = path`. -/
def EngineOutcome := PlaylistVideo → Option (TaskStatus × String × String)

/-- `Service.downloadPlaylistVideo` (service.go:1044), with the engine and
the monitor goroutine abstracted by `outcome`.  The playlist mutations are
exactly the source's: mark Downloading, then on `AddTask` failure mark Error
with the error text; otherwise, on the task finishing, mark
Completed (copying output path, progress 100) or Error (copying the task's
last error). -/
def downloadPlaylistVideo (outcome : EngineOutcome) (p : Playlist) (v : PlaylistVideo) :
    Playlist :=
  let p1 := p.updateVideoStatus v.id .downloading
  match outcome v with
  | none =>
    (p1.updateVideoStatus v.id .error).setVideoError v.id
      ("task already exists for URL: " ++ v.url)
  | some (ts, lastErr, outPath) =>
    if ts = .completed then
      ((p1.updateVideoOutputPath v.id outPath).updateVideoStatus v.id .completed).updateVideoProgress v.id 100
    else
      (p1.updateVideoStatus v.id .error).setVideoError v.id lastErr

/-- One chunk of `Service.processPlaylist`: every video of the chunk is run
through `downloadPlaylistVideo` (the chunk's goroutines all complete before
the barrier `wg.Wait()` releases). -/
def processChunk (outcome : EngineOutcome) (p : Playlist) (chunk : List PlaylistVideo) :
    Playlist :=
  chunk.foldl (downloadPlaylistVideo outcome) p

/-- The chunk loop of `Service.processPlaylist`: after each chunk the code
returns early if the playlist was cancelled (status Error); after the last
chunk the playlist is marked Completed. -/
def processChunks (outcome : EngineOutcome) : List (List PlaylistVideo) → Playlist → Playlist
  | [], p => p.updateStatus .completed
  | c :: rest, p =>
    let p1 := processChunk outcome p c
    if p1.status = .error then p1
    else processChunks outcome rest p1

/-- `Service.processPlaylist` (service.go:1006): empty pending list marks the
playlist Completed at once; otherwise the pending videos are processed in
chunks of `chunkSize` (= `maxPlaylistParallel`).  `List.toChunks` matches the
Go `for i := 0; i < n; i += chunkSize` slicing for `chunkSize > 0` (the Go
loop does not terminate for `chunkSize = 0`). -/
def processPlaylist (outcome : EngineOutcome) (chunkSize : Nat) (p : Playlist) : Playlist :=
  let pendingVideos := p.getPendingVideos
  if pendingVideos.length = 0 then p.updateStatus .completed
  else processChunks outcome (List.toChunks chunkSize pendingVideos) p

/-! ### Scheduler interleaving machine (AddTask / startTask / startNextPendingTask)

Each action is one `tasksMutex`-protected critical section of the source;
a trace is a sequence of such sections, i.e. one interleaving of the
concurrent execution.  `schedStep` returns `none` when the action is not
enabled in the given state (so an invalid trace proves nothing). -/

/-- One critical section of the scheduler code. -/
inductive SchedAction where
  /-- `Service.AddTask` body (one locked section); `newId` must be fresh. -/
  | addTask (newId url : String)
  /-- First locked section of `Service.startTask`: `activeCount++` and
  `task.Status = Starting`; enabled once the goroutine has been spawned. -/
  | beginStart (id : String)
  /-- Second locked section of `Service.startTask`: `task.Status = Downloading`. -/
  | setDownloading (id : String)
  /-- The end of `Service.startTask` for a Downloading task: the final status
  write, the deferred `activeCount--` and `startNextPendingTask`. -/
  | finishTask (id : String) (final : TaskStatus)
deriving DecidableEq, Repr

/-- Scheduler state: the registry plus the set of task ids whose `startTask`
goroutine has been spawned (`go s.startTask(task)`) but has not yet run its
first critical section. -/
structure SchedState where
  tasks : List DownloadTask
  spawned : List String
  activeCount : Nat
  maxParallel : Nat
deriving DecidableEq, Repr

/-- The service right after `NewService` with the given `maxParallel`. -/
def schedInit (maxParallel : Nat) : SchedState :=
  { tasks := [], spawned := [], activeCount := 0, maxParallel := maxParallel }

/-- Status of the task with the given id, if present. -/
def SchedState.statusOf (st : SchedState) (id : String) : Option TaskStatus :=
  (st.tasks.find? (fun t => t.id == id)).map (fun t => t.status)

/-- Replace the status of the task with the given id. -/
def setStatus (tasks : List DownloadTask) (id : String) (s : TaskStatus) :
    List DownloadTask :=
  tasks.map (fun t => if t.id == id then { t with status := s } else t)

/-- One interleaving step. -/
def schedStep (st : SchedState) : SchedAction → Option SchedState
  | .addTask newId url =>
    if st.tasks.any (fun t => t.id == newId) then none   -- newId must be fresh
    else if st.tasks.any (fun t => t.url == url && !t.status.isFinished) then none
    else
      let st1 := { st with tasks := st.tasks ++ [freshTask newId url] }
      -- `if s.activeCount < s.maxParallel { go s.startTask(task) }`:
      -- the check reads the *current* activeCount; the spawned goroutine
      -- increments it only later, in its own critical section.
      if st1.activeCount < st1.maxParallel then
        some { st1 with spawned := st1.spawned ++ [newId] }
      else some st1
  | .beginStart id =>
    if st.spawned.contains id then
      some { st with
              spawned := st.spawned.erase id
              tasks := setStatus st.tasks id .starting
              activeCount := st.activeCount + 1 }
    else none
  | .setDownloading id =>
    if st.statusOf id == some .starting then
      some { st with tasks := setStatus st.tasks id .downloading }
    else none
  | .finishTask id final =>
    if st.statusOf id == some .downloading && final.isFinished then
      let st1 := { st with
                    tasks := setStatus st.tasks id final
                    activeCount := st.activeCount - 1 }
      if st1.activeCount < st1.maxParallel then
        match st1.tasks.find? (fun t => t.status == .pending) with
        | some t => some { st1 with spawned := st1.spawned ++ [t.id] }
        | none => some st1
      else some st1
    else none

/-- Run a trace of critical sections. -/
def schedRun (st : SchedState) : List SchedAction → Option SchedState
  | [] => some st
  | a :: rest =>
    match schedStep st a with
    | none => none
    | some st1 => schedRun st1 rest

/-! ### Concrete sample states used by witnesses and counterexamples -/

/-- A registry holding one finished (Completed) task for URL "u". -/
def sampleRegistryC1 : ServiceState :=
  { tasks := [{ id := "task-1", url := "u", status := .completed, progress := 1,
                percent := 100, speed := "", etaSec := 0, lastError := "" }]
    stopModes := []
    activeCount := 0
    maxParallel := 1 }

/-- A registry holding one Stopped task. -/
def sampleRegistryC6 : ServiceState :=
  { tasks := [{ id := "task-1", url := "u", status := .stopped, progress := 0,
                percent := 0, speed := "", etaSec := -1, lastError := "" }]
    stopModes := []
    activeCount := 0
    maxParallel := 1 }

/-- A registry holding one Completed (hence non-active) task. -/
def sampleRegistryC10 : ServiceState :=
  { tasks := [{ id := "task-1", url := "u", status := .completed, progress := 1,
                percent := 100, speed := "", etaSec := 0, lastError := "" }]
    stopModes := []
    activeCount := 0
    maxParallel := 1 }

/-- A compression registry holding one *Pending* (non-finished, non-active)
task for the input path "/v.mp4". -/
def pendingCompressionRegistry : CompressState :=
  { tasks := [{ id := "compress-1", inputPath := "/v.mp4",
                outputPath := generateOutputPath "/v.mp4", status := .pending,
                progress := 0, percent := 0 }] }

/-- A compression registry holding one finished (Completed) task for the
input path "/v.mp4". -/
def finishedCompressionRegistry : CompressState :=
  { tasks := [{ id := "compress-1", inputPath := "/v.mp4",
                outputPath := "/v-compressed.mp4", status := .completed,
                progress := 1, percent := 100 }] }

/-- A Downloading playlist with two Pending videos. -/
def samplePlaylist : Playlist :=
  { id := "pl-1"
    videos := [{ id := "v1", url := "https://youtu.be/aaaaaaaaaaa", status := .pending,
                 progress := 0, errMsg := "", outputPath := "" },
               { id := "v2", url := "https://youtu.be/bbbbbbbbbbb", status := .pending,
                 progress := 0, errMsg := "", outputPath := "" }]
    status := .downloading }

/-! ## Theorems -/

/-- C5: feeding the measurements (1.5, 25), (2.0, 30), (1.8, 35) through
`addMeasurement` into a fresh `SmoothingState` makes
`calculateSmoothedValues` return percent 30 (the truncated integer mean of
25, 30, 35) and the speed string "1.8MB/s" (the mean 53/30 ≈ 1.77 of 1.5,
2.0, 1.8 formatted to one decimal place); and on a state holding no samples
it returns `("", 0)`. -/
theorem calculateSmoothedValues_spec :
    (((emptySmoothing.addMeasurement (3/2) 25).addMeasurement 2 30).addMeasurement
        (9/5) 35).calculateSmoothedValues = ("1.8MB/s", 30)
    ∧ emptySmoothing.calculateSmoothedValues = ("", 0) := by
  constructor
  · have hstate : ((emptySmoothing.addMeasurement (3/2) 25).addMeasurement 2 30).addMeasurement
        (9/5) 35 = ⟨[3/2, 2, 9/5], [25, 30, 35]⟩ := rfl
    rw [hstate]
    unfold SmoothingState.calculateSmoothedValues
    simp only [List.length_cons, List.length_nil, List.foldl_cons, List.foldl_nil]
    norm_num
    refine ⟨?_, by decide⟩
    have hf : fmt1f (53/30 : ℚ) = "1.8" := by
      unfold fmt1f
      rw [show (53:ℚ)/30 * 10 + 1/2 = 109/6 by norm_num]
      rw [show ⌊(109:ℚ)/6⌋ = 18 from by rw [Int.floor_eq_iff]; norm_num]
      rfl
    rw [hf]
    rfl
  · decide

/-- C9: `generateOutputPath` strips the final extension, appends
"-compressed" and the fixed ".mp4" container extension — in particular on
the two paths of the claim. -/
theorem generateOutputPath_examples :
    generateOutputPath "/a/b/video.mkv" = "/a/b/video-compressed.mp4"
    ∧ generateOutputPath "/no/ext/file" = "/no/ext/file-compressed.mp4" := by
  constructor
  · decide
  · decide

/-- C4 (refuting the claim): `extractVideoID` is *not* total.  On the URL
"https://example.com/video" — which matches none of the youtube.com/watch,
youtu.be or vimeo.com patterns — the generic fallback computes
`hash = fmt.Sprintf("%x", len(url))` = "19" (two bytes) and `hash[:8]`
panics with a slice-bounds-out-of-range runtime error (modelled as `none`),
so `GetTaskByVideoID` panics on any registry holding such a URL.  A
recognized 11-character YouTube id is still extracted fine. -/
theorem extractVideoID_fallback_panics :
    extractVideoID "https://example.com/video" = none
    ∧ extractVideoID "https://youtube.com/watch?v=abcdefghijk" = some "abcdefghijk" := by
  constructor
  · decide
  · decide

/-- C2 (refuting the claim): with max-parallel 1, the interleaving in which
`AddTask("u1")` and `AddTask("u2")` both run their critical sections before
either spawned `startTask` goroutine runs its first one is reachable —
`AddTask` checks `activeCount < maxParallel` but the increment happens later
inside the goroutine — and it leaves BOTH tasks in the active status
Starting with `activeCount = 2` despite `maxParallel = 1`. -/
theorem scheduler_overshoot :
    (schedRun (schedInit 1)
        [.addTask "t1" "u1", .addTask "t2" "u2", .beginStart "t1", .beginStart "t2"]).map
        (fun st => (st.maxParallel, st.activeCount, st.tasks.map (fun t => t.status.isActive)))
      = some (1, 2, [true, true]) := by
  decide

/-- C3 (refuting the claim): a progress callback *never* sets `etaSec`.  The
ETA block of `updateTaskProgressFromNew` re-reads the `progressState` entry
*after* the snapshot overwrite `s.progressState[task.ID] = {lastBytes:
p.DownloadedSize, lastAt: now}`, so its `deltaBytes` is always `0` and the
`deltaBytes > 0` guard never passes: `etaSec` keeps its previous value (−1
from `AddTask`) for every callback.  In particular, on a second raw sample —
previous sample 0 bytes at t=1s, current sample 50 of 100 bytes at t=2s,
where the claim requires `etaSeconds = (100−50)/(50/1) = 1` — the task still
reports −1. -/
theorem updateTaskProgressFromNew_never_sets_eta :
    (∀ (ctx : ProgressCtx) (p : Progress) (now : ℚ),
        (updateTaskProgressFromNew ctx p now).task.etaSec = ctx.task.etaSec)
    ∧ (updateTaskProgressFromNew
        { task := freshTask "task-1" "u", progressEntry := some { lastBytes := 0, lastAt := 1 },
          smoothing := none }
        { totalSize := 100, downloadedSize := 50 } 2).task.etaSec = -1 := by
  have hgen : ∀ (ctx : ProgressCtx) (p : Progress) (now : ℚ),
      (updateTaskProgressFromNew ctx p now).task.etaSec = ctx.task.etaSec := by
    intro ctx p now
    unfold updateTaskProgressFromNew
    simp only [sub_self, lt_irrefl, false_and, if_false]
    split <;> split <;> simp [SmoothingState.addMeasurement]
  exact ⟨hgen, by rw [hgen]; rfl⟩

/-- C1: `AddTask(u)` fails with the duplicate error iff the registry holds a
task for `u` whose status is not finished; on that error the task map is
unchanged; otherwise (in particular once every earlier task for `u` is
finished) it succeeds, returning and storing a fresh task with status
Pending, progress 0.0, percent 0 and etaSeconds −1 under the fresh id. -/
theorem addTask_spec (st : ServiceState) (newId u : String)
    (hfresh : ∀ t ∈ st.tasks, t.id ≠ newId) :
    ((addTask st newId u).1 = Except.error ("task already exists for URL: " ++ u)
        ↔ ∃ t ∈ st.tasks, t.url = u ∧ t.status.isFinished = false)
    ∧ ((addTask st newId u).1 = Except.error ("task already exists for URL: " ++ u) →
        (addTask st newId u).2 = st)
    ∧ ((∀ t ∈ st.tasks, t.url = u → t.status.isFinished = true) →
        (addTask st newId u).1 = Except.ok (freshTask newId u)
        ∧ (addTask st newId u).2.tasks = st.tasks ++ [freshTask newId u]) := by
  have hcond : (st.tasks.any (fun t => t.url == u && !t.status.isFinished)) = true
      ↔ ∃ t ∈ st.tasks, t.url = u ∧ t.status.isFinished = false := by
    simp [List.any_eq_true, Bool.and_eq_true]
  by_cases h : st.tasks.any (fun t => t.url == u && !t.status.isFinished) = true
  · refine ⟨?_, ?_, ?_⟩
    · simp only [addTask, h, if_true]
      exact ⟨fun _ => hcond.mp h, fun _ => trivial⟩
    · intro _
      simp [addTask, h]
    · intro hAll
      exfalso
      rcases hcond.mp h with ⟨t, ht, hu, hf⟩
      rw [hAll t ht hu] at hf
      cases hf
  · have h0 : st.tasks.any (fun t => t.url == u && !t.status.isFinished) = false := by
      simpa using h
    have hins : insertTask st.tasks (freshTask newId u) = st.tasks ++ [freshTask newId u] := by
      unfold insertTask
      have hany : st.tasks.any (fun t => t.id == (freshTask newId u).id) = false := by
        simp only [List.any_eq_false]
        intro t ht
        simp only [freshTask, beq_iff_eq]
        exact hfresh t ht
      rw [hany]
      simp
    refine ⟨?_, ?_, ?_⟩
    · simp only [addTask, h0]
      constructor
      · intro hh
        simp at hh
      · intro hex
        exact absurd (hcond.mpr hex) h
    · intro hh
      simp [addTask, h0] at hh
    · intro _
      simp [addTask, h0, hins]

/-- Witness for C1: on a registry whose only task for "u" is Completed, a
fresh `AddTask("u")` succeeds with the freshly initialised task. -/
theorem addTask_spec_witness :
    (∀ t ∈ sampleRegistryC1.tasks, t.id ≠ "task-2")
    ∧ (addTask sampleRegistryC1 "task-2" "u").1 = Except.ok (freshTask "task-2" "u") :=
  ⟨by decide, ((addTask_spec sampleRegistryC1 "task-2" "u" (by decide)).2.2 (by decide)).1⟩

/-- C6: `StopTask` on a task that is already Stopped returns nil and leaves
the whole registry state (task statuses, lastError, stop-mode map)
unchanged, so a second call is the same no-op. -/
theorem stopTask_stopped_idempotent (st : ServiceState) (id : String) (task : DownloadTask)
    (hfind : st.tasks.find? (fun t => t.id == id) = some task)
    (hstopped : task.status = .stopped) :
    stopTask st id = (Except.ok (), st)
    ∧ stopTask (stopTask st id).2 id = (Except.ok (), st) := by
  have h1 : stopTask st id = (Except.ok (), st) := by
    unfold stopTask
    rw [hfind]
    simp [hstopped, TaskStatus.isActive]
  exact ⟨h1, by rw [h1]; simpa using h1⟩

/-- Witness for C6 on a one-task registry whose task is Stopped. -/
theorem stopTask_stopped_idempotent_witness :
    stopTask sampleRegistryC6 "task-1" = (Except.ok (), sampleRegistryC6)
    ∧ stopTask (stopTask sampleRegistryC6 "task-1").2 "task-1"
        = (Except.ok (), sampleRegistryC6) :=
  stopTask_stopped_idempotent sampleRegistryC6 "task-1"
    { id := "task-1", url := "u", status := .stopped, progress := 0,
      percent := 0, speed := "", etaSec := -1, lastError := "" } rfl rfl

/-- C10: `PauseTask` on a present but non-active task (Pending, Paused,
Completed, Stopped or Error) returns nil and changes nothing — neither the
task's status nor the stop-mode map; and `PauseTask` returns an error
exactly when no task with that id exists. -/
theorem pauseTask_spec (st : ServiceState) (id : String) (task : DownloadTask)
    (hfind : st.tasks.find? (fun t => t.id == id) = some task)
    (hinactive : task.status.isActive = false) :
    pauseTask st id = (Except.ok (), st)
    ∧ ∀ (st' : ServiceState) (j : String),
        (∃ e, (pauseTask st' j).1 = Except.error e)
          ↔ st'.tasks.find? (fun t => t.id == j) = none := by
  constructor
  · unfold pauseTask
    rw [hfind]
    simp [hinactive]
  · intro st' j
    constructor
    · rintro ⟨e, he⟩
      cases hf : st'.tasks.find? (fun t => t.id == j) with
      | none => rfl
      | some t =>
        exfalso
        unfold pauseTask at he
        rw [hf] at he
        cases hb : (!t.status.isActive) <;> simp [hb] at he
    · intro hf
      exact ⟨_, by unfold pauseTask; rw [hf]⟩

/-- Witness for C10 on a one-task registry whose task is Completed. -/
theorem pauseTask_spec_witness :
    pauseTask sampleRegistryC10 "task-1" = (Except.ok (), sampleRegistryC10) :=
  (pauseTask_spec sampleRegistryC10 "task-1"
    { id := "task-1", url := "u", status := .completed, progress := 1,
      percent := 100, speed := "", etaSec := 0, lastError := "" } rfl rfl).1

/-- C7 counterexample: with a *Pending* compression task for "/v.mp4" in the
registry — a non-finished status — and the input file present on disk, a
second `StartCompression("/v.mp4")` nevertheless *succeeds*: the duplicate
guard tests `IsActive()`, not "not finished", so the claim's "error
whenever a non-finished task holds the path" is false. -/
theorem startCompression_nonfinished_counterexample :
    (pendingCompressionRegistry.tasks.any
        (fun t => t.inputPath == "/v.mp4" && !t.status.isFinished)) = true
    ∧ (startCompression pendingCompressionRegistry (fun _ => true) "compress-2" "/v.mp4").1
        = Except.ok { id := "compress-2", inputPath := "/v.mp4",
                      outputPath := generateOutputPath "/v.mp4", status := .pending,
                      progress := 0, percent := 0 } :=
  ⟨rfl, rfl⟩

/-- C7 amended: `StartCompression(inputPath)` errors iff the registry holds
an *active* (Starting/Downloading/Stopping) task with the same input path,
or the input file does not exist; on error no task is stored; and whenever
every same-path task is non-active — in particular once the earlier task
reached any finished status — and the file exists, the call succeeds. -/
theorem startCompression_amended (st : CompressState) (fe : String → Bool) (newId p : String) :
    ((∃ e, (startCompression st fe newId p).1 = Except.error e)
        ↔ ((∃ t ∈ st.tasks, t.inputPath = p ∧ t.status.isActive = true) ∨ fe p = false))
    ∧ ((∃ e, (startCompression st fe newId p).1 = Except.error e) →
        (startCompression st fe newId p).2 = st)
    ∧ ((∀ t ∈ st.tasks, t.inputPath = p → t.status.isActive = false) → fe p = true →
        ∃ task, (startCompression st fe newId p).1 = Except.ok task) := by
  have hcond : (st.tasks.any (fun t => t.inputPath == p && t.status.isActive)) = true
      ↔ ∃ t ∈ st.tasks, t.inputPath = p ∧ t.status.isActive = true := by
    simp [List.any_eq_true, Bool.and_eq_true]
  by_cases h : st.tasks.any (fun t => t.inputPath == p && t.status.isActive) = true
  · refine ⟨?_, ?_, ?_⟩
    · simp only [startCompression, h, if_true]
      exact ⟨fun _ => Or.inl (hcond.mp h), fun _ => ⟨_, rfl⟩⟩
    · intro _
      simp [startCompression, h]
    · intro hAll _
      exfalso
      rcases hcond.mp h with ⟨t, ht, hp, ha⟩
      rw [hAll t ht hp] at ha
      cases ha
  · have h0 : st.tasks.any (fun t => t.inputPath == p && t.status.isActive) = false := by
      simpa using h
    by_cases hfe : fe p = true
    · refine ⟨?_, ?_, ?_⟩
      · simp only [startCompression, h0, hfe]
        constructor
        · rintro ⟨e, he⟩
          simp at he
        · rintro (hex | hf)
          · exact absurd (hcond.mpr hex) h
          · simp [hfe] at hf
      · rintro ⟨e, he⟩
        simp [startCompression, h0, hfe] at he
      · intro _ _
        exact ⟨{ id := newId, inputPath := p, outputPath := generateOutputPath p,
                 status := .pending, progress := 0, percent := 0 },
          by simp [startCompression, h0, hfe]⟩
    · have hfe0 : fe p = false := by simpa using hfe
      have herr : (startCompression st fe newId p).1
          = Except.error ("input file does not exist: " ++ p) := by
        simp [startCompression, h0, hfe0]
      refine ⟨?_, ?_, ?_⟩
      · exact ⟨fun _ => Or.inr hfe0, fun _ => ⟨_, herr⟩⟩
      · intro _
        simp [startCompression, h0, hfe0]
      · intro _ hfe1
        rw [hfe1] at hfe0
        cases hfe0

/-- Witness for the amended C7: once the same-path task is Completed and the
file exists, `StartCompression` succeeds. -/
theorem startCompression_amended_witness :
    ∃ task,
      (startCompression finishedCompressionRegistry (fun _ => true) "compress-2" "/v.mp4").1
        = Except.ok task :=
  (startCompression_amended finishedCompressionRegistry (fun _ => true) "compress-2"
    "/v.mp4").2.2 (by decide) rfl

/-- `downloadPlaylistVideo` only touches per-video fields: the playlist's own
status is preserved. -/
theorem downloadPlaylistVideo_status (outcome : EngineOutcome) (p : Playlist)
    (v : PlaylistVideo) : (downloadPlaylistVideo outcome p v).status = p.status := by
  unfold downloadPlaylistVideo
  cases outcome v with
  | none => simp [Playlist.updateVideoStatus, Playlist.setVideoError]
  | some r =>
    rcases r with ⟨ts, lastErr, outPath⟩
    by_cases h : ts = .completed <;>
      simp [h, Playlist.updateVideoStatus, Playlist.setVideoError,
        Playlist.updateVideoOutputPath, Playlist.updateVideoProgress]

/-- A whole chunk preserves the playlist status. -/
theorem processChunk_status (outcome : EngineOutcome) (chunk : List PlaylistVideo)
    (p : Playlist) : (processChunk outcome p chunk).status = p.status := by
  induction chunk generalizing p with
  | nil => rfl
  | cons v rest ih =>
    unfold processChunk at ih ⊢
    simp only [List.foldl_cons]
    rw [ih, downloadPlaylistVideo_status]

/-- The chunk loop ends with status Completed whenever the playlist is not
cancelled (status Error). -/
theorem processChunks_status (outcome : EngineOutcome) (chunks : List (List PlaylistVideo))
    (p : Playlist) (h : p.status ≠ .error) :
    (processChunks outcome chunks p).status = .completed := by
  induction chunks generalizing p with
  | nil => rfl
  | cons c rest ih =>
    unfold processChunks
    have hc : (processChunk outcome p c).status = p.status := processChunk_status outcome c p
    rw [if_neg (by rw [hc]; exact h)]
    exact ih _ (by rw [hc]; exact h)

/-- C8: a playlist that runs through all its chunks without having been
cancelled (status set to Error by `CancelPlaylist`) ends Completed — for
*every* per-video outcome, including the one where every video ends in
Error: there is no partial-failure playlist status.  (`0 < chunkSize`
mirrors that the Go chunk loop only terminates for a positive chunk
size.) -/
theorem processPlaylist_all_error_completed (outcome : EngineOutcome) (chunkSize : Nat)
    (p : Playlist) (_hcs : 0 < chunkSize) (h : p.status ≠ .error) :
    (processPlaylist outcome chunkSize p).status = .completed := by
  show (if p.getPendingVideos.length = 0 then p.updateStatus .completed
      else processChunks outcome (List.toChunks chunkSize p.getPendingVideos) p).status
      = .completed
  by_cases hp : p.getPendingVideos.length = 0
  · rw [if_pos hp]
    rfl
  · rw [if_neg hp]
    exact processChunks_status outcome _ p h

/-- Witness for C8: a two-video playlist whose every video ends in Error is
still marked Completed. -/
theorem processPlaylist_all_error_completed_witness :
    (processPlaylist (fun _ => some (TaskStatus.error, "boom", "")) 3 samplePlaylist).status
        = PlaylistStatus.completed
    ∧ (processPlaylist (fun _ => some (TaskStatus.error, "boom", "")) 3 samplePlaylist).videos.all
        (fun v => v.status == VideoStatus.error) = true :=
  ⟨processPlaylist_all_error_completed (fun _ => some (TaskStatus.error, "boom", "")) 3
      samplePlaylist (by decide) (by decide),
   by decide⟩

end YtDownloader
